import Mathlib

/-! Verification of the multimodal embedding and retrieval layer
(`haystack/nodes/retriever/multimodal.py` and
`haystack/modeling/model/multimodal_language_model.py`).

Shallow embedding conventions:
* Python strings that are inspected character by character (document text
  content) are `List Char`; strings used only as keys/tags are `String`.
* Fallible code returns `Except HsError`; each `HsError` constructor records
  which Python exception class and payload the source raises.
* Tensors are rectangular `List (List Int)` matrices (rows of embeddings);
  `torch.stack` / `.view` / `np.concatenate` are modelled with their shape
  checks, since those raise on mismatched shapes.
* The pretrained models and feature extractors are external collaborators
  (outside `src/`); they are modelled from the spec as per-content-type
  row-wise encoders (see `MMModel`).
-/

/-- Errors raised by the code under verification. Each constructor notes the
Python exception class it stands for. -/
inductive HsError where
  /-- Python `MultiModalRetrieverError` from `_docs_to_data`: unknown content type;
  carries the offending type and the list of known types from the message. -/
  | unknownContentType (content_type : String) (known : List String)
  /-- Python `ModelingError` from `embed`: features produced for a content type with
  no initialized model; carries the orphan type and the initialized set. -/
  | noModelFor (content_type : String) (initialized : List String)
  /-- Python `ModelingError` from `embed`: embedding sizes differ across models;
  carries the per-content-type sizes reported in the message. -/
  | modelingDimMismatch (sizes : List (String × Nat))
  /-- Python `ModelingError` from `MultiModalLanguageModel.forward`: kwarg names do
  not match `expected_inputs`; carries the supplied names, the expected
  names and the mandatory names listed in the message. -/
  | modelingInputMismatch (given : List String) (expected : List String)
      (mandatory : List String)
  /-- Python `MultiModalRetrieverError` from `retrieve_batch`: number of filters
  does not match number of queries. -/
  | filterCountMismatch
  /-- Python `ValueError` from `get_mm_language_model`: no wrapper registered for
  the resolved model type; carries the resolved type and supported keys. -/
  | unsupportedModelType (model_type : String) (supported : List String)
  /-- Python `RuntimeError` from `torch.stack` on tensors of unequal shapes. -/
  | torchStackShape
  /-- Python `ValueError` from `range(0, n, 0)` when the batch size is zero. -/
  | rangeStepZero
  /-- Python `ValueError` from `np.concatenate([])` on an empty document list. -/
  | npConcatEmpty
  /-- Python `ValueError` from `np.concatenate` on matrices of unequal widths. -/
  | npConcatShape
  /-- Python `NameError`: local `embeddings` unbound (a batch with no content-type
  groups; unreachable since batches are nonempty). -/
  | pythonNameError
  /-- Python `IndexError`: `[0]` applied to an empty result list. -/
  | indexError
  deriving DecidableEq, Repr

/-- Which errors are `ModelingError` (class hierarchy of `haystack.errors`);
`unknownContentType` and `filterCountMismatch` are `MultiModalRetrieverError`
(a `NodeError`), and the remaining ones are builtin Python exceptions. -/
def HsError.isModelingError : HsError → Bool
  | .noModelFor _ _ => true
  | .modelingDimMismatch _ => true
  | .modelingInputMismatch _ _ _ => true
  | _ => false

/-- Raw document payload (`Document.content`): a text string, a pandas
table (column headers plus row-major cells), or an image file reference. -/
inductive Payload where
  | text (s : List Char)
  | table (columns : List (List Char)) (rows : List (List (List Char)))
  | image (ref : List Char)
  deriving DecidableEq, Repr

/-- Data produced by a document converter and consumed by a feature
extractor: a string (text/table) or a decoded image (`PIL.Image.open`,
modelled by the reference it was opened from). -/
inductive MMData where
  | str (s : List Char)
  | image (ref : List Char)
  deriving DecidableEq, Repr

/-- Document (`haystack.schema.Document`, fields used by this code):
`content` payload, `content_type` tag, and `meta` — an ordered mapping whose
iteration (as in `" ".join(doc.meta)`) yields its keys, modelled as the
ordered key list. -/
structure Document where
  content : Payload
  content_type : String
  meta : List (List Char)
  deriving DecidableEq, Repr

/-- Modelled from the spec: `haystack.schema.ContentTypes` is not under
`src/`; §3 and the glossary fix the supported set to `text`, `table`,
`image`, in this order (`get_args(ContentTypes)`). -/
def ContentTypes : List String := ["text", "table", "image"]

/-- Content types whose converted payload may be prefixed with meta fields
(`CAN_EMBED_META` in the source). -/
def CAN_EMBED_META : List String := ["text", "table"]

/-- Text converter body: `doc.content[:-1] if doc.content[-1] == "?" else
doc.content` (the documented stripping of a single trailing `?`). Python
evaluates `doc.content[-1]` first, which raises `IndexError` on empty
content; that crash path is modelled by the `none` branch. -/
def cleanText (s : List Char) : Except HsError (List Char) :=
  match s.getLast? with
  | none => .error .indexError
  | some c => .ok (if c = '?' then s.dropLast else s)

/-- Python `" ".join(xs)` over strings-as-char-lists. -/
def joinSpace : List (List Char) → List Char
  | [] => []
  | [x] => x
  | x :: xs => x ++ ' ' :: joinSpace xs

/-- Entry `DOCUMENT_CONVERTERS["text"]`. Empty text content raises
`IndexError` (via `cleanText`). A document whose payload is not actually
text would crash in Python in other ways; that fallback branch is
unreachable for well-formed documents. -/
def textDocConverter (doc : Document) : Except HsError MMData :=
  match doc.content with
  | .text s =>
      match cleanText s with
      | .error err => .error err
      | .ok cleaned => .ok (.str cleaned)
  | _ => .ok (.str [])

/-- Entry `DOCUMENT_CONVERTERS["table"]`: `" ".join(columns + row-major cells)`. -/
def tableDocConverter (doc : Document) : Except HsError MMData :=
  match doc.content with
  | .table columns rows => .ok (.str (joinSpace (columns ++ rows.flatten)))
  | _ => .ok (.str [])

/-- Entry `DOCUMENT_CONVERTERS["image"]`: `Image.open(doc.content)`, modelled by
the opened reference. -/
def imageDocConverter (doc : Document) : Except HsError MMData :=
  match doc.content with
  | .image ref => .ok (.image ref)
  | _ => .ok (.image [])

/-- The `DOCUMENT_CONVERTERS` dict: content type → converter; `none` models
the `KeyError` branch for unknown content types. -/
def DOCUMENT_CONVERTERS (content_type : String) : Option (Document → Except HsError MMData) :=
  if content_type = "text" then some textDocConverter
  else if content_type = "table" then some tableDocConverter
  else if content_type = "image" then some imageDocConverter
  else none

/-- Meta prefixing inside `_docs_to_data`: `meta = " ".join(doc.meta or [])`
then `f"{meta} {data}" if meta else data`. Only string data ever reaches
this point (image is not in `CAN_EMBED_META`). -/
def withMeta (meta_fields : List (List Char)) (data : MMData) : MMData :=
  let meta := joinSpace meta_fields
  if meta = [] then data
  else
    match data with
    | .str s => .str (meta ++ ' ' :: s)
    | .image ref => .image ref

/-- Processing of one document inside the `_docs_to_data` loop, in source
order: converter lookup (`KeyError` → `MultiModalRetrieverError` naming the
type and listing the supported types), conversion (which may raise, e.g.
`IndexError` on empty text content), then meta prefixing when
`self.embed_meta_fields` is truthy and the content type is in
`CAN_EMBED_META`. -/
def docEntry (embed_meta_fields : List (List Char)) (doc : Document) :
    Except HsError MMData :=
  match DOCUMENT_CONVERTERS doc.content_type with
  | none => .error (.unknownContentType doc.content_type ContentTypes)
  | some converter =>
      match converter doc with
      | .error err => .error err
      | .ok data =>
          .ok (if embed_meta_fields ≠ [] ∧ doc.content_type ∈ CAN_EMBED_META then
            withMeta doc.meta data
          else data)

/-- Total read-off of a successful conversion (junk on the error branch;
only ever used under a success hypothesis). -/
def docEntryD (embed_meta_fields : List (List Char)) (doc : Document) : MMData :=
  match docEntry embed_meta_fields doc with
  | .ok data => data
  | .error _ => .str []

/-- One `_docs_to_data` loop iteration, tagged with the document's content
type for the grouping step. -/
def docsToDataStep (embed_meta_fields : List (List Char)) (doc : Document) :
    Except HsError (String × MMData) :=
  match docEntry embed_meta_fields doc with
  | .error err => .error err
  | .ok data => .ok (doc.content_type, data)

/-- Effectful `for`-loop accumulation over a list (the Python pattern
`for x in l: acc.append(f(x))` with exceptions propagating). -/
def exceptMapM (f : α → Except HsError β) : List α → Except HsError (List β)
  | [] => .ok []
  | x :: xs =>
      match f x with
      | .error e => .error e
      | .ok y =>
          match exceptMapM f xs with
          | .error e => .error e
          | .ok ys => .ok (y :: ys)

/-- Method `MultiModalEmbedder._docs_to_data`: process the documents in
order (raising at the first document whose content type is unknown or whose
conversion fails), then group the converted payloads by content type in
`ContentTypes` order (the insertion order of the `docs_data` dict), and
drop empty groups. -/
def docs_to_data (embed_meta_fields : List (List Char)) (documents : List Document) :
    Except HsError (List (String × List MMData)) :=
  match exceptMapM (docsToDataStep embed_meta_fields) documents with
  | .error err => .error err
  | .ok converted => .ok (ContentTypes.filterMap (fun ct =>
      let values := (converted.filter (fun p => p.1 = ct)).map (fun p => p.2)
      if values.isEmpty then none else some (ct, values)))

/-- Modelled from the spec: the per-content-type encoder. The feature
extractor and the pretrained model are external collaborators (§4.3, §6):
features are row-aligned with the input data (§3, feature batch shape
`[batch_size, ...]`) and `forward` returns one `[batch, output_dims]`
tensor; their composition is one deterministic row-wise encoder mapping
each converted payload to one embedding row. `dims` is the model's
`output_dims`. -/
structure MMModel where
  encode : MMData → List Int
  dims : Nat

/-- A model is uniform when every row it emits has width `output_dims`;
real models satisfy this by construction (their output is a rectangular
`[batch, output_dims]` tensor). -/
def MMModel.Uniform (m : MMModel) : Prop := ∀ d, (m.encode d).length = m.dims

/-- Last dimension (`tensor.shape[-1]`) of a rectangular row matrix. -/
def lastDim (t : List (List Int)) : Nat := (t.headD []).length

/-- Call `torch.stack(ts)` followed by `.view(-1, s)` where `s` is the common row
width: `stack` requires every tensor to have the same shape (else
`RuntimeError`, modelled as `none`; stacking an empty sequence also
raises), and `view(-1, s)` then flattens the `[k, n, s]` result back to
`[k*n, s]`, i.e. concatenates the tensors' rows in order. -/
def stackView : List (List (List Int)) → Option (List (List Int))
  | [] => none
  | t :: ts =>
      if (t :: ts).all (fun u => u.length == t.length &&
          u.all (fun r => r.length == lastDim t)) then
        some ((t :: ts).flatten)
      else none

/-- Call `np.concatenate(arrays)`: raises on an empty list, and on matrices
whose widths differ; otherwise concatenates the rows. -/
def npConcatenate (arrays : List (List (List Int))) : Except HsError (List (List Int)) :=
  match arrays with
  | [] => .error .npConcatEmpty
  | a :: rest =>
      if rest.all (fun b => lastDim b == lastDim a) then .ok ((a :: rest).flatten)
      else .error .npConcatShape

/-- Class `MultiModalEmbedder`: one model per content type (an insertion-ordered
dict), the construction-time batch size, and the `embed_meta_fields`
list. -/
structure MultiModalEmbedder where
  models : List (String × MMModel)
  batch_size : Nat
  embed_meta_fields : List (List Char)

/-- The `for key, inputs in features_by_type.items()` loop of `embed`: look
up the model for each content type (raising a `ModelingError` at the first
type with no initialized model) and run it on that type's feature batch. -/
def modelOutputsLoop (models : List (String × MMModel)) :
    List (String × List MMData) → Except HsError (List (String × List (List Int)))
  | [] => .ok []
  | (key, inputs) :: rest =>
      match models.lookup key with
      | none => .error (.noModelFor key (models.map (·.1)))
      | some m =>
          match modelOutputsLoop models rest with
          | .error e => .error e
          | .ok outs => .ok ((key, inputs.map m.encode) :: outs)

/-- The block nested in `embed`'s content-type loop: compute the outputs for
every content type gathered in `features_by_type` so far, check that the
embedding sizes match (`ModelingError` otherwise), then
`torch.stack(...).view(-1, embedding_sizes[0])`. -/
def innerBlock (models : List (String × MMModel))
    (features_by_type : List (String × List MMData)) :
    Except HsError (List (List Int)) :=
  match modelOutputsLoop models features_by_type with
  | .error e => .error e
  | .ok outputs_by_type =>
      let embedding_sizes := outputs_by_type.map (fun p => lastDim p.2)
      if embedding_sizes.all (fun s => s == embedding_sizes.headD 0) then
        match stackView (outputs_by_type.map (·.2)) with
        | some rows => .ok rows
        | none => .error .torchStackShape
      else
        .error (.modelingDimMismatch
          (outputs_by_type.map (fun p => (p.1, lastDim p.2))))

/-- The `for data_type, data_list in data_by_type.items()` loop of `embed`:
`features_by_type` accumulates one entry per iteration, and the output
computation / size check / stack block is nested INSIDE this loop (source
indentation), so it runs once per prefix of the content-type groups; the
batch keeps the `embeddings` value of the last iteration. An empty group
list would leave `embeddings` unbound (`NameError`); unreachable since
batches are nonempty. -/
def dataTypeLoop (models : List (String × MMModel)) :
    List (String × List MMData) → List (String × List MMData) →
    Except HsError (List (List Int))
  | _, [] => .error .pythonNameError
  | features_by_type, (data_type, data_list) :: rest =>
      match innerBlock models (features_by_type ++ [(data_type, data_list)]) with
      | .error e => .error e
      | .ok embeddings =>
          match rest with
          | [] => .ok embeddings
          | _ :: _ => dataTypeLoop models (features_by_type ++ [(data_type, data_list)]) rest

/-- Structural worker for `chunks`: the fuel argument (instantiated with the
list length) only forces termination and never runs out when `bs ≠ 0`. -/
def chunksFuel (bs : Nat) : Nat → List α → List (List α)
  | _, [] => []
  | 0, _ :: _ => []
  | fuel + 1, x :: xs => (x :: xs).take bs :: chunksFuel bs fuel ((x :: xs).drop bs)

/-- Slicing `documents[i : i + batch_size]` over `range(0, len(documents), batch_size)`:
`documents[i : i + batch_size]` batches in order. `batch_size = 0` would
raise a `ValueError` in `range`; the caller (`embed`) is modelled to raise
before slicing, so `chunks` is only ever used with `bs ≠ 0`. -/
def chunks (bs : Nat) (l : List α) : List (List α) :=
  chunksFuel bs l.length l


/-- The body of `embed`'s batch loop for one `docs_batch`: `_docs_to_data`
followed by the (mis-indented) content-type loop, yielding that batch's
final `embeddings` value. -/
def embedBatch (e : MultiModalEmbedder) (docs_batch : List Document) :
    Except HsError (List (List Int)) :=
  match docs_to_data e.embed_meta_fields docs_batch with
  | .error err => .error err
  | .ok data_by_type => dataTypeLoop e.models [] data_by_type

/-- Method `MultiModalEmbedder.embed`: slice `documents` into batches, run
`embedBatch` on each, collect each batch's `embeddings`, and
`np.concatenate` them. -/
def MultiModalEmbedder.embed (e : MultiModalEmbedder) (documents : List Document)
    (batch_size : Option Nat) : Except HsError (List (List Int)) :=
  let bs := batch_size.getD e.batch_size
  if bs = 0 then .error .rangeStepZero
  else
    match exceptMapM (embedBatch e) (chunks bs documents) with
    | .error err => .error err
    | .ok all_embeddings => npConcatenate all_embeddings

/-- Reference definition, following the spec's words ("document i's
embedding is row i"): the embedding row a single document should get — its
own content type's model applied to its own converted payload. Compared
against the rows `embed` actually returns. -/
def specEmbedRow (e : MultiModalEmbedder) (doc : Document) : Option (List Int) :=
  match e.models.lookup doc.content_type, docEntry e.embed_meta_fields doc with
  | some m, .ok data => some (m.encode data)
  | _, _ => none

/-- Method `MultiModalLanguageModel.forward(**kwargs)` (the wrapper hierarchy's
public contract): `kwargs` is the named-tensor mapping, `expected` the
subclass's `expected_inputs` pair `(mandatory, optional)` of name sets, and
`hook` the architecture-specific `_forward` inference hook. Validates
`given_args >= mandatory_args and given_args <= mandatory_args |
optional_args` before any tensor computation; on violation raises a
`ModelingError` listing the supplied names, the expected names and the
mandatory names (Python additionally sorts them for display). -/
def MultiModalLanguageModel.forward (expected : List String × List String)
    (hook : List (String × α) → β) (kwargs : List (String × α)) :
    Except HsError β :=
  let mandatory_args := expected.1
  let all_args := expected.1 ++ expected.2
  let given_args := kwargs.map (·.1)
  if mandatory_args.all (fun a => given_args.contains a) &&
      given_args.all (fun a => all_args.contains a) then
    .ok (hook kwargs)
  else
    .error (.modelingInputMismatch given_args all_args mandatory_args)

/-- Property `TextLanguageModel.expected_inputs` (also
`TextLanguageModelPlusPooler`): all three names mandatory, none
optional. -/
def TextLanguageModel.expected_inputs : List String × List String :=
  (["input_ids", "token_type_ids", "attention_mask"], [])

/-- Property `ImageLanguageModel.expected_inputs`: `pixel_values` mandatory,
`bool_masked_pos` and `head_mask` optional. -/
def ImageLanguageModel.expected_inputs : List String × List String :=
  (["pixel_values"], ["bool_masked_pos", "head_mask"])

/-- The Haystack wrapper classes appearing in the registry. -/
inductive WrapperClass where
  | textLanguageModel
  | imageLanguageModel
  deriving DecidableEq, Repr

/-- Table `HUGGINGFACE_TO_HAYSTACK`: HuggingFace model class name → Haystack
wrapper class. -/
def HUGGINGFACE_TO_HAYSTACK : List (String × WrapperClass) :=
  [("AutoModel", .textLanguageModel),
   ("Data2VecTextForQuestionAnswering", .textLanguageModel),
   ("Data2VecVisionForImageClassification", .imageLanguageModel)]

/-- Python `str.lower()`. -/
def pyLower (s : String) : String := ⟨s.data.map Char.toLower⟩

/-- Table `HUGGINGFACE_CAPITALIZE`: alternative-capitalization pairs, the two
explicit `data2vec` aliases followed by the lowercased registry keys (note
the leading space in the value for `data2vec-text`, exactly as in the
source). -/
def HUGGINGFACE_CAPITALIZE : List (String × String) :=
  [("data2vec-text", " Data2VecTextForQuestionAnswering"),
   ("data2vec-vision", "Data2VecVisionForImageClassification")] ++
  HUGGINGFACE_TO_HAYSTACK.map (fun p => (pyLower p.1, p.1))

/-- Function `get_mm_language_model`, lines 264-278: given `config.model_type` (the
external `AutoConfig` collaborator's output for the checkpoint), normalize
it through `HUGGINGFACE_CAPITALIZE` (defaulting to `"AutoModel"`), look the
result up in `HUGGINGFACE_TO_HAYSTACK`, and either select the wrapper class
to instantiate or raise the unsupported-model `ValueError`. Downloading the
config and instantiating the wrapper are external effects not modelled. -/
def get_mm_language_model (config_model_type : String) :
    Except HsError WrapperClass :=
  let model_type := (HUGGINGFACE_CAPITALIZE.lookup (pyLower config_model_type)).getD "AutoModel"
  match HUGGINGFACE_TO_HAYSTACK.lookup model_type with
  | none => .error (.unsupportedModelType model_type
      (HUGGINGFACE_TO_HAYSTACK.map (·.1)))
  | some c => .ok c

/-- A per-query filter value as it reaches the document store: `None`, a
filter dict (keys to values, values modelled as `Int`), or — through the
dict-iteration path of `retrieve_batch` — a bare dict key. -/
inductive FilterVal where
  | null
  | dict (entries : List (String × Int))
  | str (key : String)
  deriving DecidableEq, Repr

/-- The Python value passed as the `filters` argument of `retrieve_batch`:
`None`, a single filter dict, or a list of per-query filters. -/
inductive PyFilters where
  | none
  | dict (entries : List (String × Int))
  | list (filters : List FilterVal)
  deriving DecidableEq, Repr

/-- The filters normalization at the top of `retrieve_batch`:
`if not isinstance(filters, Iterable)` — only `None` fails that test (a
dict IS iterable, over its keys) — broadcast `filters or {}`; otherwise
compare `len(filters)` with `len(queries)` and raise a
`MultiModalRetrieverError` on mismatch, else use `filters` itself as the
per-query list (for a dict, iterating it yields its KEYS). -/
def normalizeFilters (filters : PyFilters) (num_queries : Nat) :
    Except HsError (List FilterVal) :=
  match filters with
  | .none => .ok (List.replicate num_queries (.dict []))
  | .dict entries =>
      if entries.length ≠ num_queries then .error .filterCountMismatch
      else .ok (entries.map (fun kv => .str kv.1))
  | .list filters_list =>
      if filters_list.length ≠ num_queries then .error .filterCountMismatch
      else .ok filters_list

/-- Python `x or default` for an optional int argument (`top_k or
self.top_k`): `None` and `0` both fall back. -/
def pyOrNat (x : Option Nat) (default : Nat) : Nat :=
  match x with
  | some n => if n = 0 then default else n
  | none => default

/-- Python `x or default` for an optional bool argument (`scale_score or
self.scale_score`): `None` and `False` both fall back. -/
def pyOrBool (x : Option Bool) (default : Bool) : Bool :=
  match x with
  | some b => if b then b else default
  | none => default

/-- Python `x or default` for an optional string argument (`index or
self.document_store.index`): `None` and `""` both fall back. -/
def pyOrStr (x : Option String) (default : String) : String :=
  match x with
  | some s => if s = "" then default else s
  | none => default

/-- One `query_by_embedding` request issued to the document store. -/
structure StoreQuery where
  query_emb : List Int
  top_k : Nat
  filters : FilterVal
  index : String
  headers : Option (List (String × String))
  scale_score : Bool

/-- The document-store collaborator (external): its configured index and
its `query_by_embedding` ranked lookup. -/
structure DocStore where
  index : String
  query_by_embedding : StoreQuery → List Document

/-- Class `MultiModalRetriever`: the query embedder, the store, and the
construction-time `top_k` and `scale_score` (the passage embedder plays no
role in retrieval and is omitted). -/
structure MultiModalRetriever where
  query_embedder : MultiModalEmbedder
  document_store : DocStore
  top_k : Nat
  scale_score : Bool

/-- Method `MultiModalRetriever.retrieve_batch`: normalize filters, resolve the
falsy-fallback arguments, wrap each query into a transient `Document` of
the given content type, embed them, and issue one store lookup per
`zip(query_embeddings, filters_list)` pair. -/
def MultiModalRetriever.retrieve_batch (r : MultiModalRetriever)
    (queries : List (List Char)) (content_type : String) (filters : PyFilters)
    (top_k : Option Nat) (index : Option String)
    (headers : Option (List (String × String))) (batch_size : Option Nat)
    (scale_score : Option Bool) : Except HsError (List (List Document)) :=
  match normalizeFilters filters queries.length with
  | .error e => .error e
  | .ok filters_list =>
      let top_k := pyOrNat top_k r.top_k
      let index := pyOrStr index r.document_store.index
      let scale_score := pyOrBool scale_score r.scale_score
      let query_docs := queries.map (fun query =>
        (⟨.text query, content_type, []⟩ : Document))
      match r.query_embedder.embed query_docs batch_size with
      | .error e => .error e
      | .ok query_embeddings =>
          .ok ((query_embeddings.zip filters_list).map (fun p =>
            r.document_store.query_by_embedding
              ⟨p.1, top_k, p.2, index, headers, scale_score⟩))

/-- Method `MultiModalRetriever.retrieve`: delegate to `retrieve_batch` with the
one-element query list, `filters=[filters]` and `batch_size=1`, and take
element `[0]` of the result (an empty result would raise `IndexError`;
unreachable since one query yields one result list). -/
def MultiModalRetriever.retrieve (r : MultiModalRetriever) (query : List Char)
    (content_type : String) (filters : FilterVal) (top_k : Option Nat)
    (index : Option String) (headers : Option (List (String × String)))
    (scale_score : Option Bool) : Except HsError (List Document) :=
  match r.retrieve_batch [query] content_type (.list [filters]) top_k
    index headers (some 1) scale_score with
  | .error e => .error e
  | .ok (res :: _) => .ok res
  | .ok [] => .error .indexError

/-- Printable tag of a filter value (used by the example store below to
record which filter it was queried with). -/
def FilterVal.describe : FilterVal → List Char
  | .null => 'N' :: 'o' :: 'n' :: 'e' :: []
  | .dict entries => 'd' :: ':' :: joinSpace (entries.map (fun kv => kv.1.data))
  | .str key => 'k' :: ':' :: key.data

/-- Example text encoder: embeds a string as its length (one dimension). -/
def exTextModel : MMModel :=
  ⟨fun d => match d with | .str s => [(s.length : Int)] | .image _ => [0], 1⟩

/-- Example image encoder with the same output width as `exTextModel`. -/
def exImageModel : MMModel :=
  ⟨fun d => match d with | .image r => [100 + (r.length : Int)] | .str _ => [0], 1⟩

/-- Example table encoder (one dimension). -/
def exTableModel : MMModel := ⟨fun _ => [2], 1⟩

/-- Example image encoder of output width 2 (mis-paired with the others). -/
def exWideImageModel : MMModel := ⟨fun _ => [5, 6], 2⟩

/-- Embedder with compatible text and image models (both width 1). -/
def mixedEmbedder : MultiModalEmbedder :=
  ⟨[("text", exTextModel), ("image", exImageModel)], 16, []⟩

/-- Embedder with text/table models of width 1 and an image model of
width 2 (the dimension-mismatch scenario of spec §8). -/
def threeTypeEmbedder : MultiModalEmbedder :=
  ⟨[("text", exTextModel), ("table", exTableModel), ("image", exWideImageModel)], 16, []⟩

/-- Example documents. -/
def docT0 : Document := ⟨.text "a".data, "text", []⟩

def docT1 : Document := ⟨.text "bbb".data, "text", []⟩

def docI0 : Document := ⟨.image "xx".data, "image", []⟩

def docI1 : Document := ⟨.image "yyyy".data, "image", []⟩

def docTab : Document := ⟨.table ["c".data] [], "table", []⟩

/-- A document with a content type outside the supported set. -/
def audioDoc : Document := ⟨.text "x".data, "audio", []⟩

/-- A mixed-content-type document list interleaving text and image. -/
def mixedDocs : List Document := [docT0, docI0, docT1, docI1]

/-- A document store that echoes each request back as one document: the
content records the filter it was queried with, the content-type field the
effective `scale_score` flag. -/
def echoStore : DocStore :=
  ⟨"docstore", fun q =>
    [⟨.text q.filters.describe, if q.scale_score then "scaled" else "raw", []⟩]⟩

/-- A retriever over `echoStore` with a text query embedder, `top_k = 10`
and construction-time `scale_score = true`. -/
def echoRetriever : MultiModalRetriever :=
  ⟨⟨[("text", exTextModel)], 16, []⟩, echoStore, 10, true⟩

/-! Helper lemmas about the batching, accumulation and grouping plumbing. -/

theorem chunksFuel_fuel_irrel {α : Type} (bs : Nat) (hbs : bs ≠ 0) :
    ∀ (f1 : Nat) (l : List α) (f2 : Nat), l.length ≤ f1 → l.length ≤ f2 →
      chunksFuel bs f1 l = chunksFuel bs f2 l := by
  intro f1
  induction f1 with
  | zero =>
    intro l f2 h1 _
    have : l = [] := List.eq_nil_of_length_eq_zero (Nat.le_zero.mp h1)
    subst this
    cases f2 <;> rfl
  | succ f1 ih =>
    intro l f2 h1 h2
    match l with
    | [] => cases f2 <;> rfl
    | x :: xs =>
      match f2 with
      | 0 => simp at h2
      | f2 + 1 =>
        simp only [chunksFuel]
        congr 1
        apply ih
        · simp only [List.length_drop, List.length_cons]
          simp only [List.length_cons] at h1
          omega
        · simp only [List.length_drop, List.length_cons]
          simp only [List.length_cons] at h2
          omega

theorem chunks_cons {α : Type} (bs : Nat) (x : α) (xs : List α) (hbs : bs ≠ 0) :
    chunks bs (x :: xs) = (x :: xs).take bs :: chunks bs ((x :: xs).drop bs) := by
  show chunksFuel bs (x :: xs).length (x :: xs) = _
  simp only [List.length_cons, chunksFuel]
  congr 1
  apply chunksFuel_fuel_irrel bs hbs
  · simp only [List.length_drop, List.length_cons]; omega
  · exact Nat.le_refl _

theorem chunks_flatten {α : Type} (bs : Nat) (hbs : bs ≠ 0) (l : List α) :
    (chunks bs l).flatten = l := by
  match l with
  | [] => rfl
  | x :: xs =>
    rw [chunks_cons bs x xs hbs, List.flatten_cons,
      chunks_flatten bs hbs ((x :: xs).drop bs), List.take_append_drop]
termination_by l.length
decreasing_by
  simp only [List.length_drop, List.length_cons]
  omega

theorem chunks_ne_nil {α : Type} (bs : Nat) (hbs : bs ≠ 0) (l : List α) :
    ∀ b ∈ chunks bs l, b ≠ [] := by
  match l with
  | [] => intro b hb; cases hb
  | x :: xs =>
    intro b hb
    rw [chunks_cons bs x xs hbs] at hb
    rcases List.mem_cons.mp hb with rfl | hb'
    · match bs, hbs with
      | bs + 1, _ => simp
    · exact chunks_ne_nil bs hbs ((x :: xs).drop bs) b hb'
termination_by l.length
decreasing_by
  simp only [List.length_drop, List.length_cons]
  omega

theorem mem_of_mem_chunks {α : Type} (bs : Nat) (hbs : bs ≠ 0) (l : List α)
    (b : List α) (hb : b ∈ chunks bs l) : ∀ a ∈ b, a ∈ l := by
  intro a ha
  have : a ∈ (chunks bs l).flatten := List.mem_flatten.mpr ⟨b, hb, ha⟩
  rwa [chunks_flatten bs hbs] at this

theorem chunks_eq_singleton {α : Type} (bs : Nat) (l : List α) (hbs : bs ≠ 0)
    (hne : l ≠ []) (hlen : l.length ≤ bs) : chunks bs l = [l] := by
  match l with
  | [] => exact absurd rfl hne
  | x :: xs =>
    rw [chunks_cons bs x xs hbs, List.take_of_length_le hlen,
      List.drop_eq_nil_of_le hlen]
    rfl

theorem exceptMapM_congr_ok {α β : Type} {f : α → Except HsError β} {g : α → β} :
    ∀ l : List α, (∀ x ∈ l, f x = .ok (g x)) → exceptMapM f l = .ok (l.map g) := by
  intro l h
  induction l with
  | nil => rfl
  | cons x xs ih =>
    have hx := h x (List.mem_cons_self x xs)
    have ihx := ih (fun a ha => h a (List.mem_cons_of_mem x ha))
    simp only [exceptMapM, hx, ihx, List.map_cons]

theorem exceptMapM_ok_forall {α β : Type} {f : α → Except HsError β} :
    ∀ {l : List α} {ys : List β}, exceptMapM f l = .ok ys →
      ∀ x ∈ l, ∃ y, f x = .ok y := by
  intro l
  induction l with
  | nil => intro ys _ x hx; cases hx
  | cons a as ih =>
    intro ys hok x hx
    rcases hfa : f a with e | y
    · rw [show exceptMapM f (a :: as) = .error e by
        simp only [exceptMapM, hfa]] at hok
      cases hok
    · rcases List.mem_cons.mp hx with rfl | hx'
      · exact ⟨y, hfa⟩
      · rcases hrest : exceptMapM f as with e | ys'
        · rw [show exceptMapM f (a :: as) = .error e by
            simp only [exceptMapM, hfa, hrest]] at hok
          cases hok
        · exact ih hrest x hx'

theorem filterMap_eq_singleton_of_unique {α β : Type} {l : List α}
    {f : α → Option β} {a : α} {y : β} (hnd : l.Nodup) (ha : a ∈ l)
    (hfa : f a = some y) (hother : ∀ b ∈ l, b ≠ a → f b = none) :
    l.filterMap f = [y] := by
  induction l with
  | nil => cases ha
  | cons x xs ih =>
    rw [List.filterMap_cons]
    rcases List.mem_cons.mp ha with rfl | ha'
    · rw [hfa]
      have : xs.filterMap f = [] := by
        rw [List.filterMap_eq_nil_iff]
        intro b hb
        exact hother b (List.mem_cons_of_mem _ hb)
          (fun hba => (List.nodup_cons.mp hnd).1 (hba ▸ hb))
      rw [this]
    · have hxa : x ≠ a := fun hxa => (List.nodup_cons.mp hnd).1 (hxa ▸ ha')
      rw [hother x (List.mem_cons_self x xs) hxa]
      exact ih (List.nodup_cons.mp hnd).2 ha'
        (fun b hb hba => hother b (List.mem_cons_of_mem x hb) hba)

theorem exceptMapM_append_error {α β : Type} {f : α → Except HsError β}
    (pre : List α) (d : α) (post : List α) (err : HsError)
    (hpre : ∀ x ∈ pre, ∃ y, f x = .ok y) (hd : f d = .error err) :
    exceptMapM f (pre ++ d :: post) = .error err := by
  induction pre with
  | nil =>
    rw [List.nil_append]
    simp only [exceptMapM, hd]
  | cons x xs ih =>
    obtain ⟨y, hy⟩ := hpre x (List.mem_cons_self x xs)
    rw [List.cons_append]
    simp only [exceptMapM, hy,
      ih (fun a ha => hpre a (List.mem_cons_of_mem x ha))]

theorem exceptMapM_error_split {α β : Type} {f : α → Except HsError β} :
    ∀ {l : List α} {err : HsError}, exceptMapM f l = .error err →
      ∃ pre x post, l = pre ++ x :: post ∧
        (∀ a ∈ pre, ∃ y, f a = .ok y) ∧ f x = .error err := by
  intro l
  induction l with
  | nil =>
    intro err h
    rw [show exceptMapM f [] = Except.ok [] from rfl] at h
    cases h
  | cons a as ih =>
    intro err h
    rcases hfa : f a with e | y
    · rw [show exceptMapM f (a :: as) = .error e by
        simp only [exceptMapM, hfa]] at h
      injection h with he
      exact ⟨[], a, as, rfl, fun x hx => absurd hx (List.not_mem_nil x),
        by rw [hfa, he]⟩
    · rcases hrest : exceptMapM f as with e | ys
      · rw [show exceptMapM f (a :: as) = .error e by
          simp only [exceptMapM, hfa, hrest]] at h
        injection h with he
        obtain ⟨pre, x, post, hl, hpre2, hx⟩ := ih (by rw [hrest, he])
        refine ⟨a :: pre, x, post, by rw [hl]; rfl, ?_, hx⟩
        intro z hz
        rcases List.mem_cons.mp hz with rfl | hz'
        · exact ⟨y, hfa⟩
        · exact hpre2 z hz'
      · rw [show exceptMapM f (a :: as) = .ok (y :: ys) by
          simp only [exceptMapM, hfa, hrest]] at h
        cases h

theorem chunks_step {α : Type} (bs : Nat) (hbs : bs ≠ 0) (l : List α)
    (hne : l ≠ []) : chunks bs l = l.take bs :: chunks bs (l.drop bs) := by
  rcases l with _ | ⟨x, xs⟩
  · exact absurd rfl hne
  · exact chunks_cons bs x xs hbs

theorem chunks_split {α : Type} (bs : Nat) (hbs : bs ≠ 0) (pre : List α)
    (d : α) (post : List α) :
    ∃ B1 bpre bpost B2,
      chunks bs (pre ++ d :: post) = B1 ++ (bpre ++ d :: bpost) :: B2 ∧
      B1.flatten ++ bpre = pre := by
  by_cases hlt : pre.length < bs
  · obtain ⟨k, hk⟩ : ∃ k, bs - pre.length = k + 1 :=
      ⟨bs - pre.length - 1, by omega⟩
    refine ⟨[], pre, post.take k, chunks bs ((pre ++ d :: post).drop bs), ?_,
      by simp⟩
    rw [chunks_step bs hbs _ (by simp), List.nil_append]
    congr 1
    rw [List.take_append_eq_append_take,
      List.take_of_length_le (Nat.le_of_lt hlt), hk, List.take_succ_cons]
  · have hple : bs ≤ pre.length := Nat.le_of_not_lt hlt
    obtain ⟨B1, bpre, bpost, B2, hc, hf⟩ :=
      chunks_split bs hbs (pre.drop bs) d post
    refine ⟨pre.take bs :: B1, bpre, bpost, B2, ?_, ?_⟩
    · rw [chunks_step bs hbs _ (by simp),
        List.take_append_eq_append_take, Nat.sub_eq_zero_of_le hple,
        List.take_zero, List.append_nil,
        List.drop_append_eq_append_drop, Nat.sub_eq_zero_of_le hple,
        List.drop_zero, hc, List.cons_append]
    · rw [List.flatten_cons, List.append_assoc, hf, List.take_append_drop]
termination_by pre.length
decreasing_by
  simp only [List.length_drop]
  omega

theorem docEntry_ok_of_isSome (emf : List (List Char)) (d : Document)
    (h : (docEntry emf d).toOption.isSome) :
    docEntry emf d = .ok (docEntryD emf d) := by
  rcases hde : docEntry emf d with err | data
  · rw [hde] at h
    simp [Except.toOption] at h
  · unfold docEntryD
    rw [hde]

theorem docEntry_ok_of_step_ok (emf : List (List Char)) (d : Document)
    (y : String × MMData) (h : docsToDataStep emf d = .ok y) :
    docEntry emf d = .ok (docEntryD emf d) := by
  unfold docsToDataStep at h
  rcases hde : docEntry emf d with err | data
  · rw [hde] at h
    cases h
  · unfold docEntryD
    rw [hde]

theorem docsToDataStep_ok (emf : List (List Char)) (d : Document)
    (data : MMData) (h : docEntry emf d = .ok data) :
    docsToDataStep emf d = .ok (d.content_type, data) := by
  unfold docsToDataStep
  rw [h]

theorem docs_to_data_homogeneous (emf : List (List Char)) (ct : String)
    (docs : List Document) (f : Document → MMData) (hne : docs ≠ [])
    (hct : ∀ d ∈ docs, d.content_type = ct) (hmem : ct ∈ ContentTypes)
    (hconv : ∀ d ∈ docs, docEntry emf d = .ok (f d)) :
    docs_to_data emf docs = .ok [(ct, docs.map f)] := by
  have hsteps : exceptMapM (docsToDataStep emf) docs =
      .ok (docs.map (fun d => (d.content_type, f d))) := by
    apply exceptMapM_congr_ok
    intro d hd
    exact docsToDataStep_ok emf d (f d) (hconv d hd)
  have hred : docs_to_data emf docs = .ok (ContentTypes.filterMap (fun ct2 =>
      let values := ((docs.map (fun d => (d.content_type, f d))).filter
        (fun p => p.1 = ct2)).map (fun p => p.2)
      if values.isEmpty then none else some (ct2, values))) := by
    unfold docs_to_data
    rw [hsteps]
  rw [hred]
  congr 1
  apply filterMap_eq_singleton_of_unique (by decide) hmem
  · have hfilter : (docs.map (fun d => (d.content_type, f d))).filter
        (fun p => p.1 = ct) = docs.map (fun d => (d.content_type, f d)) := by
      apply List.filter_eq_self.mpr
      intro p hp
      rcases List.mem_map.mp hp with ⟨d, hd, rfl⟩
      exact decide_eq_true (hct d hd)
    simp only [hfilter]
    rw [if_neg]
    · rw [List.map_map]
      rfl
    · simp only [List.isEmpty_eq_true, List.map_eq_nil_iff]
      exact hne
  · intro ct' _ hne'
    have hfilter : (docs.map (fun d => (d.content_type, f d))).filter
        (fun p => p.1 = ct') = [] := by
      rw [List.filter_eq_nil_iff]
      intro p hp
      rcases List.mem_map.mp hp with ⟨d, hd, rfl⟩
      simp only [decide_eq_true_eq]
      rw [hct d hd]
      exact fun h => hne' h.symm
    simp only [hfilter, List.map_nil, List.isEmpty_nil, if_true]

theorem stackView_rect (t : List (List Int))
    (hrect : ∀ r ∈ t, r.length = lastDim t) : stackView [t] = some t := by
  have hcond : (([t] : List (List (List Int))).headD [] :: []).all
      (fun u => u.length == t.length && u.all fun r => r.length == lastDim t) = true := by
    simp only [List.headD_cons, List.all_cons, List.all_nil, Bool.and_true,
      beq_self_eq_true, Bool.true_and]
    rw [List.all_eq_true]
    intro r hr
    exact beq_iff_eq.mpr (hrect r hr)
  simp only [stackView]
  rw [if_pos]
  · simp
  · simpa using hcond

theorem dataTypeLoop_single (models : List (String × MMModel)) (ct : String)
    (dl : List MMData) (m : MMModel) (hlk : models.lookup ct = some m)
    (hu : m.Uniform) : dataTypeLoop models [] [(ct, dl)] = .ok (dl.map m.encode) := by
  have houts : modelOutputsLoop models [(ct, dl)] = .ok [(ct, dl.map m.encode)] := by
    simp only [modelOutputsLoop, hlk]
  have hrect : ∀ r ∈ dl.map m.encode, r.length = lastDim (dl.map m.encode) := by
    intro r hr
    rcases List.mem_map.mp hr with ⟨d, hd, rfl⟩
    rcases dl with _ | ⟨d0, dl'⟩
    · cases hd
    · simp only [lastDim, List.map_cons, List.headD_cons]
      rw [hu d, hu d0]
  have hinner : innerBlock models [(ct, dl)] = .ok (dl.map m.encode) := by
    unfold innerBlock
    rw [houts]
    simp only [List.map_cons, List.map_nil, List.all_cons, List.all_nil,
      List.headD_cons, beq_self_eq_true, Bool.and_true, if_true]
    rw [stackView_rect (dl.map m.encode) hrect]
  show (match innerBlock models ([] ++ [(ct, dl)]) with
    | .error e => .error e
    | .ok embeddings => .ok embeddings) = Except.ok (dl.map m.encode)
  rw [List.nil_append, hinner]

theorem lastDim_map_encode (m : MMModel) (hu : m.Uniform)
    (f : Document → MMData) (b : List Document) (hne : b ≠ []) :
    lastDim (b.map (fun d => m.encode (f d))) = m.dims := by
  rcases b with _ | ⟨d0, b'⟩
  · exact absurd rfl hne
  · simp only [List.map_cons, lastDim, List.headD_cons]
    exact hu _

theorem embedBatch_homogeneous (e : MultiModalEmbedder) (b : List Document)
    (ct : String) (m : MMModel) (f : Document → MMData) (hbne : b ≠ [])
    (hbct : ∀ d ∈ b, d.content_type = ct) (hmem : ct ∈ ContentTypes)
    (hlk : e.models.lookup ct = some m) (hu : m.Uniform)
    (hconv : ∀ d ∈ b, docEntry e.embed_meta_fields d = .ok (f d)) :
    embedBatch e b = .ok (b.map (fun d => m.encode (f d))) := by
  have h1 := docs_to_data_homogeneous e.embed_meta_fields ct b f hbne hbct hmem hconv
  have h2 := dataTypeLoop_single e.models ct (b.map f) m hlk hu
  unfold embedBatch
  rw [h1]
  show dataTypeLoop e.models [] [(ct, b.map f)] = _
  rw [h2, List.map_map]
  rfl

theorem embed_homogeneous (e : MultiModalEmbedder) (docs : List Document)
    (bs : Nat) (ct : String) (m : MMModel) (f : Document → MMData)
    (hbs : bs ≠ 0) (hct : ∀ d ∈ docs, d.content_type = ct)
    (hmem : ct ∈ ContentTypes) (hlk : e.models.lookup ct = some m)
    (hu : m.Uniform)
    (hconv : ∀ d ∈ docs, docEntry e.embed_meta_fields d = .ok (f d)) :
    e.embed docs (some bs) =
      if docs.isEmpty then .error .npConcatEmpty
      else .ok (docs.map (fun d => m.encode (f d))) := by
  have hbatch : ∀ b ∈ chunks bs docs, embedBatch e b =
      .ok (b.map (fun d => m.encode (f d))) := by
    intro b hb
    exact embedBatch_homogeneous e b ct m f (chunks_ne_nil bs hbs docs b hb)
      (fun d hd => hct d (mem_of_mem_chunks bs hbs docs b hb d hd)) hmem hlk hu
      (fun d hd => hconv d (mem_of_mem_chunks bs hbs docs b hb d hd))
  have hmapm := exceptMapM_congr_ok (chunks bs docs) hbatch
  have hred : e.embed docs (some bs) = npConcatenate ((chunks bs docs).map
      (fun b => b.map (fun d => m.encode (f d)))) := by
    show (if bs = 0 then Except.error HsError.rangeStepZero
      else match exceptMapM (embedBatch e) (chunks bs docs) with
        | .error err => Except.error err
        | .ok all_embeddings => npConcatenate all_embeddings) = _
    rw [if_neg hbs, hmapm]
  rw [hred]
  rcases docs with _ | ⟨d0, docs'⟩
  · rfl
  · rw [if_neg (by simp)]
    have hchne : chunks bs (d0 :: docs') ≠ [] := by
      intro h
      have := chunks_flatten bs hbs (d0 :: docs')
      rw [h] at this
      cases this
    rcases harr : chunks bs (d0 :: docs') with _ | ⟨c0, crest⟩
    · exact absurd harr hchne
    · have hwidth : ∀ c ∈ c0 :: crest,
          lastDim (c.map (fun d => m.encode (f d))) = m.dims := by
        intro c hc
        exact lastDim_map_encode m hu f c
          (chunks_ne_nil bs hbs (d0 :: docs') c (harr ▸ hc))
      simp only [List.map_cons, npConcatenate]
      rw [if_pos]
      · congr 1
        have := List.map_flatten (fun d => m.encode (f d)) (c0 :: crest)
        rw [show ((c0 :: crest).map (List.map (fun d => m.encode (f d)))) =
            ((c0 :: crest).map (fun b => b.map (fun d => m.encode (f d)))) from rfl] at this
        rw [List.map_cons] at this
        rw [← this, ← harr, chunks_flatten bs hbs, List.map_cons]
      · rw [List.all_eq_true]
        intro a ha
        rcases List.mem_map.mp ha with ⟨c, hc, rfl⟩
        rw [hwidth c (List.mem_cons_of_mem c0 hc),
          hwidth c0 (List.mem_cons_self c0 crest)]
        exact beq_self_eq_true m.dims

theorem embed_eq (e : MultiModalEmbedder) (docs : List Document)
    (batch_size : Option Nat) :
    e.embed docs batch_size =
      if batch_size.getD e.batch_size = 0 then .error .rangeStepZero
      else
        match exceptMapM (embedBatch e) (chunks (batch_size.getD e.batch_size) docs) with
        | .error err => .error err
        | .ok all_embeddings => npConcatenate all_embeddings := rfl

theorem embed_homogeneous_error (e : MultiModalEmbedder) (docs : List Document)
    (bs : Nat) (ct : String) (m : MMModel) (pre : List Document)
    (dd : Document) (post : List Document) (err : HsError) (hbs : bs ≠ 0)
    (hct : ∀ d ∈ docs, d.content_type = ct) (hmem : ct ∈ ContentTypes)
    (hlk : e.models.lookup ct = some m) (hu : m.Uniform)
    (hdocs : docs = pre ++ dd :: post)
    (hpre : ∀ x ∈ pre, ∃ y, docsToDataStep e.embed_meta_fields x = .ok y)
    (hdd : docsToDataStep e.embed_meta_fields dd = .error err) :
    e.embed docs (some bs) = .error err := by
  subst hdocs
  obtain ⟨B1, bpre, bpost, B2, hchunks, hflat⟩ := chunks_split bs hbs pre dd post
  have hpre_mem : ∀ x ∈ B1.flatten ++ bpre, x ∈ pre := by
    rw [hflat]
    exact fun x hx => hx
  have hB1ok : ∀ b ∈ B1, ∃ y, embedBatch e b = .ok y := by
    intro b hb
    have hbchunks : b ∈ chunks bs (pre ++ dd :: post) := by
      rw [hchunks]
      exact List.mem_append_left _ hb
    have hbsub : ∀ x ∈ b, x ∈ pre := fun x hx =>
      hpre_mem x (List.mem_append_left _ (List.mem_flatten.mpr ⟨b, hb, hx⟩))
    refine ⟨b.map (fun d => m.encode (docEntryD e.embed_meta_fields d)), ?_⟩
    apply embedBatch_homogeneous e b ct m (docEntryD e.embed_meta_fields)
      (chunks_ne_nil bs hbs (pre ++ dd :: post) b hbchunks) ?_ hmem hlk hu ?_
    · intro x hx
      exact hct x (List.mem_append_left _ (hbsub x hx))
    · intro x hx
      obtain ⟨y, hy⟩ := hpre x (hbsub x hx)
      exact docEntry_ok_of_step_ok e.embed_meta_fields x y hy
  have hmid : embedBatch e (bpre ++ dd :: bpost) = .error err := by
    have hsteps : exceptMapM (docsToDataStep e.embed_meta_fields)
        (bpre ++ dd :: bpost) = .error err := by
      apply exceptMapM_append_error bpre dd bpost err ?_ hdd
      intro x hx
      exact hpre x (hpre_mem x (List.mem_append_right _ hx))
    have hd2d : docs_to_data e.embed_meta_fields (bpre ++ dd :: bpost) =
        .error err := by
      unfold docs_to_data
      rw [hsteps]
    unfold embedBatch
    rw [hd2d]
  have hbatches : exceptMapM (embedBatch e)
      (B1 ++ (bpre ++ dd :: bpost) :: B2) = .error err :=
    exceptMapM_append_error B1 _ B2 err hB1ok hmid
  rw [embed_eq]
  simp only [Option.getD_some]
  rw [if_neg hbs, hchunks, hbatches]

theorem embed_homogeneous_canon (e : MultiModalEmbedder) (docs : List Document)
    (bs : Nat) (ct : String) (m : MMModel) (hbs : bs ≠ 0)
    (hct : ∀ d ∈ docs, d.content_type = ct) (hmem : ct ∈ ContentTypes)
    (hlk : e.models.lookup ct = some m) (hu : m.Uniform) :
    e.embed docs (some bs) =
      match exceptMapM (docsToDataStep e.embed_meta_fields) docs with
      | .error err => .error err
      | .ok _ =>
          if docs.isEmpty then .error .npConcatEmpty
          else .ok (docs.map (fun d => m.encode (docEntryD e.embed_meta_fields d))) := by
  rcases hsteps : exceptMapM (docsToDataStep e.embed_meta_fields) docs
    with err | pairs
  · obtain ⟨pre, dd, post, hdocs, hpre, hdd⟩ := exceptMapM_error_split hsteps
    exact embed_homogeneous_error e docs bs ct m pre dd post err hbs hct hmem
      hlk hu hdocs hpre hdd
  · have hconv : ∀ d ∈ docs, docEntry e.embed_meta_fields d =
        .ok (docEntryD e.embed_meta_fields d) := by
      intro d hd
      obtain ⟨y, hy⟩ := exceptMapM_ok_forall hsteps d hd
      exact docEntry_ok_of_step_ok e.embed_meta_fields d y hy
    exact embed_homogeneous e docs bs ct m (docEntryD e.embed_meta_fields) hbs
      hct hmem hlk hu hconv

theorem docs_to_data_error_of_mem (emf : List (List Char)) (b : List Document)
    (d : Document) (hd : d ∈ b)
    (hunk : DOCUMENT_CONVERTERS d.content_type = none) :
    ∃ err, docs_to_data emf b = .error err := by
  rcases hm : exceptMapM (docsToDataStep emf) b with err | pairs
  · exact ⟨err, by unfold docs_to_data; rw [hm]⟩
  · exfalso
    obtain ⟨y, hy⟩ := exceptMapM_ok_forall hm d hd
    have hde : docEntry emf d =
        .error (.unknownContentType d.content_type ContentTypes) := by
      unfold docEntry
      rw [hunk]
    unfold docsToDataStep at hy
    rw [hde] at hy
    cases hy

theorem cleanText_strip (s : List Char) (h : s.getLast? = some '?') :
    cleanText s = .ok s.dropLast := by
  unfold cleanText
  rw [h]
  show Except.ok (if ('?' : Char) = '?' then s.dropLast else s) = _
  rw [if_pos rfl]

theorem cleanText_keep (s : List Char) (c : Char) (hc : s.getLast? = some c)
    (h : c ≠ '?') : cleanText s = .ok s := by
  unfold cleanText
  rw [hc]
  show Except.ok (if c = '?' then s.dropLast else s) = _
  rw [if_neg h]

/-! Claim theorems. -/

/-- C9: for every non-empty text content string, the text document converter
returns the string with exactly its final character removed when that
character is `?`, returns it unchanged otherwise, and strips at most one
trailing `?` (a string ending in `??` loses only one). -/
theorem C9_text_converter :
    (∀ (doc : Document) (s : List Char), doc.content = .text s → s ≠ [] →
      (s.getLast? = some '?' → textDocConverter doc = .ok (.str s.dropLast)) ∧
      (s.getLast? ≠ some '?' → textDocConverter doc = .ok (.str s))) ∧
    (∀ (doc : Document) (t : List Char), doc.content = .text (t ++ ['?', '?']) →
      textDocConverter doc = .ok (.str (t ++ ['?']))) := by
  have hconv : ∀ (doc : Document) (s : List Char), doc.content = .text s →
      ∀ r, cleanText s = .ok r → textDocConverter doc = .ok (.str r) := by
    intro doc s hcontent r hr
    unfold textDocConverter
    rw [hcontent]
    show (match cleanText s with
      | .error err => Except.error err
      | .ok cleaned => Except.ok (MMData.str cleaned)) = _
    rw [hr]
  constructor
  · intro doc s hcontent hne
    constructor
    · intro hlast
      exact hconv doc s hcontent _ (cleanText_strip s hlast)
    · intro hlast
      obtain ⟨c, hc⟩ : ∃ c, s.getLast? = some c := by
        rcases hl : s.getLast? with _ | c
        · exact absurd (List.getLast?_eq_none_iff.mp hl) hne
        · exact ⟨c, rfl⟩
      exact hconv doc s hcontent _
        (cleanText_keep s c hc (fun hcq => hlast (by rw [hc, hcq])))
  · intro doc t hcontent
    have hlast2 : (t ++ ['?', '?']).getLast? = some '?' := by
      rw [show t ++ ['?', '?'] = (t ++ ['?']) ++ ['?'] by simp,
        List.getLast?_concat]
    have hdrop : (t ++ ['?', '?']).dropLast = t ++ ['?'] := by
      rw [show t ++ ['?', '?'] = (t ++ ['?']) ++ ['?'] by simp,
        List.dropLast_concat]
    exact hconv doc _ hcontent _
      (by rw [cleanText_strip _ hlast2, hdrop])

/-- Witness for C9 at concrete inputs: `"ab?"` loses its trailing `?`,
`"ab"` is unchanged, and `"a??"` loses exactly one `?`. -/
theorem C9_text_converter_witness :
    textDocConverter ⟨.text "ab?".data, "text", []⟩ = .ok (.str "ab".data) ∧
    textDocConverter ⟨.text "ab".data, "text", []⟩ = .ok (.str "ab".data) ∧
    textDocConverter ⟨.text "a??".data, "text", []⟩ = .ok (.str "a?".data) := by
  refine ⟨?_, ?_, ?_⟩
  · exact (C9_text_converter.1 ⟨.text "ab?".data, "text", []⟩ "ab?".data rfl
      (by decide)).1 (by decide)
  · exact (C9_text_converter.1 ⟨.text "ab".data, "text", []⟩ "ab".data rfl
      (by decide)).2 (by decide)
  · exact C9_text_converter.2 ⟨.text "a??".data, "text", []⟩ "a".data rfl

/-- C8 (code bug): the claim says the alias table normalizes the detected
family `data2vec-text` to a registry key and the text wrapper is
instantiated instead of raising; in the code the alias value has a leading
space (`" Data2VecTextForQuestionAnswering"`), which is absent from
`HUGGINGFACE_TO_HAYSTACK`, so `get_mm_language_model` raises the
unsupported-model `ValueError` for `data2vec-text` — even though the
space-less key IS in the registry and the `data2vec-vision` alias works. -/
theorem C8_eval :
    get_mm_language_model "data2vec-text" =
      .error (.unsupportedModelType " Data2VecTextForQuestionAnswering"
        ["AutoModel", "Data2VecTextForQuestionAnswering",
         "Data2VecVisionForImageClassification"]) ∧
    HUGGINGFACE_CAPITALIZE.lookup "data2vec-text" =
      some " Data2VecTextForQuestionAnswering" ∧
    HUGGINGFACE_TO_HAYSTACK.lookup "Data2VecTextForQuestionAnswering" =
      some .textLanguageModel ∧
    get_mm_language_model "data2vec-vision" = .ok .imageLanguageModel :=
  ⟨rfl, rfl, rfl, rfl⟩

/-- C2 (code bug): with text/table models of size 1 and an image model of
size 2 in one batch (two text documents, one table, one image), the claim
and spec §4.3 demand a `ModelingError` reporting the per-type sizes; the
code instead raises a `RuntimeError` from `torch.stack` (not a
`ModelingError`), because the output/check/stack block is mis-indented
inside the content-type accumulation loop and stacks the equal-size but
unequal-row-count `[text, table]` prefix before the image model's size is
ever compared. -/
theorem C2_eval :
    threeTypeEmbedder.embed [docT0, docT1, docTab, docI0] (some 16) =
      .error .torchStackShape ∧
    HsError.torchStackShape.isModelingError = false ∧
    (threeTypeEmbedder.models.lookup "text").map MMModel.dims = some 1 ∧
    (threeTypeEmbedder.models.lookup "image").map MMModel.dims = some 2 ∧
    (∀ d ∈ [docT0, docT1, docTab, docI0],
      (threeTypeEmbedder.models.lookup d.content_type).isSome) :=
  ⟨rfl, rfl, rfl, rfl, by decide⟩

/-- C3 (code bug): `retrieve_batch(queries=["a","b"], filters={"x": 1})`
must broadcast the single filter per the claim and the method's own
docstring, but a dict satisfies `isinstance(filters, Iterable)`, so the
code raises the count-mismatch error instead; and with a dict of exactly
`len(queries)` keys it silently passes the dict's KEYS as the per-query
filters (the echo store records the filter it received). The list-of-filters
paths behave as claimed. -/
theorem C3_eval :
    echoRetriever.retrieve_batch ["a".data, "b".data] "text" (.dict [("x", 1)])
      none none none none none = .error .filterCountMismatch ∧
    echoRetriever.retrieve_batch ["a".data, "b".data] "text"
      (.dict [("x", 1), ("y", 2)]) none none none none none =
      .ok [[⟨.text ('k' :: ':' :: "x".data), "scaled", []⟩],
           [⟨.text ('k' :: ':' :: "y".data), "scaled", []⟩]] ∧
    echoRetriever.retrieve_batch ["a".data, "b".data] "text"
      (.list [.dict [("x", 1)], .null]) none none none none none =
      .ok [[⟨.text ('d' :: ':' :: "x".data), "scaled", []⟩],
           [⟨.text "None".data, "scaled", []⟩]] ∧
    echoRetriever.retrieve_batch ["a".data, "b".data] "text"
      (.list [.dict [("x", 1)]]) none none none none none =
      .error .filterCountMismatch :=
  ⟨rfl, rfl, rfl, rfl⟩

/-- C1 counterexample: a list interleaving text and image documents, every
content type with an initialized model and batch size 16 > 0: `embed`
returns four rows, but grouped by content type `[t0, t1, i0, i1]` instead
of the input order `[t0, i0, t1, i1]` (the per-document embeddings given by
`specEmbedRow`), so row 1 is not document 1's embedding. -/
theorem C1_counterexample :
    (∀ d ∈ mixedDocs, (mixedEmbedder.models.lookup d.content_type).isSome) ∧
    mixedEmbedder.embed mixedDocs (some 16) = .ok [[1], [3], [102], [104]] ∧
    mixedDocs.mapM (specEmbedRow mixedEmbedder) =
      some [[1], [102], [3], [104]] ∧
    ([[1], [3], [102], [104]] : List (List Int)) ≠ [[1], [102], [3], [104]] :=
  ⟨by decide, rfl, rfl, by decide⟩

/-- C1 amended: for every NON-EMPTY document list all of ONE supported
content type that has an initialized (uniform-width) model, whose documents
all convert successfully (in particular no empty-content text documents —
`doc.content[-1]` raises `IndexError` on an empty string), and every batch
size > 0, `embed` returns a matrix with one row per document, row `i` being
document `i`'s embedding; in a batch mixing content types the rows are
instead grouped by content type (and unequal group sizes make the stacking
step fail), as the counterexample shows. -/
theorem C1_amended (e : MultiModalEmbedder) (docs : List Document) (bs : Nat)
    (ct : String) (m : MMModel) (hbs : bs ≠ 0) (hne : docs ≠ [])
    (hct : ∀ d ∈ docs, d.content_type = ct) (hmem : ct ∈ ContentTypes)
    (hlk : e.models.lookup ct = some m) (hu : m.Uniform)
    (hconv : ∀ d ∈ docs, (docEntry e.embed_meta_fields d).toOption.isSome) :
    ∃ M, e.embed docs (some bs) = .ok M ∧ M.length = docs.length ∧
      ∀ (i : Nat) (hi : i < docs.length),
        M.get? i = specEmbedRow e (docs.get ⟨i, hi⟩) := by
  have hconv2 : ∀ d ∈ docs, docEntry e.embed_meta_fields d =
      .ok (docEntryD e.embed_meta_fields d) :=
    fun d hd => docEntry_ok_of_isSome e.embed_meta_fields d (hconv d hd)
  refine ⟨docs.map (fun d => m.encode (docEntryD e.embed_meta_fields d)), ?_,
    by simp, ?_⟩
  · rw [embed_homogeneous e docs bs ct m (docEntryD e.embed_meta_fields) hbs
      hct hmem hlk hu hconv2, if_neg (by simpa using hne)]
  · intro i hi
    have hmem_i : docs.get ⟨i, hi⟩ ∈ docs := docs.get_mem i hi
    unfold specEmbedRow
    rw [hct _ hmem_i, hlk, hconv2 _ hmem_i, List.get?_map, List.get?_eq_get hi]
    rfl

/-- Witness for C1 amended: two text documents, batch size 1. -/
theorem C1_amended_witness :
    ∃ M, mixedEmbedder.embed [docT0, docT1] (some 1) = .ok M ∧ M.length = 2 ∧
      M.get? 0 = specEmbedRow mixedEmbedder docT0 ∧
      M.get? 1 = specEmbedRow mixedEmbedder docT1 := by
  obtain ⟨M, h1, h2, h3⟩ := C1_amended mixedEmbedder [docT0, docT1] 1 "text"
    exTextModel (by decide) (by decide) (by decide) (by decide) rfl
    (fun d => by cases d <;> rfl) (by decide)
  exact ⟨M, h1, h2, h3 0 (by decide), h3 1 (by decide)⟩

/-- C4 counterexample: the same mixed-type list under batch sizes 4 and 2
(both > 0, 4 ≠ 2) yields two different matrices — batching changes the
result because each batch is regrouped by content type. -/
theorem C4_counterexample :
    mixedEmbedder.embed mixedDocs (some 4) = .ok [[1], [3], [102], [104]] ∧
    mixedEmbedder.embed mixedDocs (some 2) = .ok [[1], [102], [3], [104]] ∧
    (4 : Nat) ≠ 2 ∧
    ([[1], [3], [102], [104]] : List (List Int)) ≠ [[1], [102], [3], [104]] :=
  ⟨rfl, rfl, by decide, by decide⟩

/-- C4 amended: for a document list all of ONE supported content type whose
model is initialized and uniform, `embed` is batch-size invariant: any two
batch sizes > 0 give identical matrices. For mixed-type lists batching
changes the grouping boundaries and hence the row order, as the
counterexample shows. -/
theorem C4_amended (e : MultiModalEmbedder) (docs : List Document)
    (n1 n2 : Nat) (ct : String) (m : MMModel) (hn1 : n1 ≠ 0) (hn2 : n2 ≠ 0)
    (_hne12 : n1 ≠ n2) (hct : ∀ d ∈ docs, d.content_type = ct)
    (hmem : ct ∈ ContentTypes) (hlk : e.models.lookup ct = some m)
    (hu : m.Uniform) :
    e.embed docs (some n1) = e.embed docs (some n2) := by
  rw [embed_homogeneous_canon e docs n1 ct m hn1 hct hmem hlk hu,
    embed_homogeneous_canon e docs n2 ct m hn2 hct hmem hlk hu]

/-- Witness for C4 amended: two text documents under batch sizes 1 and 2. -/
theorem C4_amended_witness :
    mixedEmbedder.embed [docT0, docT1] (some 1) =
      mixedEmbedder.embed [docT0, docT1] (some 2) ∧
    mixedEmbedder.embed [docT0, docT1] (some 1) = .ok [[1], [3]] :=
  ⟨C4_amended mixedEmbedder [docT0, docT1] 1 2 "text" exTextModel (by decide)
    (by decide) (by decide) (by decide) (by decide) rfl
    (fun d => by cases d <;> rfl), rfl⟩

/-- C6: an unsupported `content_type` on any document makes the whole
`embed` call fail — no matrix (not even a partial one) is ever returned,
whatever the batch size and the position of the offending document — and
when every earlier document is processed successfully (converter found AND
conversion itself succeeds; an earlier conversion crash, e.g. `IndexError`
on empty text content, would preempt the message), `_docs_to_data` raises
the `MultiModalRetrieverError` naming the offending document's content type
and listing the supported types. -/
theorem C6_unknown_type :
    (∀ (e : MultiModalEmbedder) (docs : List Document) (bsOpt : Option Nat)
        (d : Document) (M : List (List Int)), d ∈ docs →
        DOCUMENT_CONVERTERS d.content_type = none →
        e.embed docs bsOpt ≠ .ok M) ∧
    (∀ (emf : List (List Char)) (pre : List Document) (d : Document)
        (post : List Document),
        (∀ p ∈ pre, (docEntry emf p).toOption.isSome) →
        DOCUMENT_CONVERTERS d.content_type = none →
        docs_to_data emf (pre ++ d :: post) =
          .error (.unknownContentType d.content_type ContentTypes)) := by
  constructor
  · intro e docs bsOpt d M hd hunk hok
    rw [embed_eq] at hok
    by_cases h0 : bsOpt.getD e.batch_size = 0
    · rw [if_pos h0] at hok; cases hok
    · rw [if_neg h0] at hok
      rcases hm : exceptMapM (embedBatch e)
          (chunks (bsOpt.getD e.batch_size) docs) with err | arrays
      · rw [hm] at hok; cases hok
      · have hdflat : d ∈ (chunks (bsOpt.getD e.batch_size) docs).flatten := by
          rw [chunks_flatten _ h0]; exact hd
        obtain ⟨b, hb, hdb⟩ := List.mem_flatten.mp hdflat
        obtain ⟨y, hy⟩ := exceptMapM_ok_forall hm b hb
        obtain ⟨err, herr⟩ :=
          docs_to_data_error_of_mem e.embed_meta_fields b d hdb hunk
        unfold embedBatch at hy
        rw [herr] at hy
        cases hy
  · intro emf pre d post hpre hunk
    have hstep_pre : ∀ p ∈ pre, ∃ y, docsToDataStep emf p = .ok y := by
      intro p hp
      exact ⟨(p.content_type, docEntryD emf p),
        docsToDataStep_ok emf p (docEntryD emf p)
          (docEntry_ok_of_isSome emf p (hpre p hp))⟩
    have hde : docEntry emf d =
        .error (.unknownContentType d.content_type ContentTypes) := by
      unfold docEntry
      rw [hunk]
    have hstep_d : docsToDataStep emf d =
        .error (.unknownContentType d.content_type ContentTypes) := by
      unfold docsToDataStep
      rw [hde]
    have hsteps := exceptMapM_append_error pre d post _ hstep_pre hstep_d
    unfold docs_to_data
    rw [hsteps]

/-- Witness for C6: a list with one text document followed by a document of
content type `audio` (unsupported): the call never returns a matrix, and
document conversion raises the error naming `audio` and listing the
supported types. -/
theorem C6_unknown_type_witness :
    (mixedEmbedder.embed [docT0, audioDoc] none ≠ .ok [[1], [0]]) ∧
    docs_to_data [] [docT0, audioDoc] =
      .error (.unknownContentType "audio" ContentTypes) := by
  constructor
  · exact C6_unknown_type.1 mixedEmbedder [docT0, audioDoc] none audioDoc
      [[1], [0]] (by decide) rfl
  · exact C6_unknown_type.2 [] [docT0] audioDoc [] (by decide) rfl

/-- C5: `MultiModalLanguageModel.forward` raises a `ModelingError` listing
the supplied and expected argument names exactly when the supplied name set
is not a superset of the mandatory names or not a subset of
mandatory ∪ optional; the error does not depend on the inference hook (no
tensor computation happens on violation); and when both inclusions hold it
delegates to the architecture-specific `_forward` hook. -/
theorem C5_forward_validation {α β : Type} (expected : List String × List String)
    (hook : List (String × α) → β) (kwargs : List (String × α)) :
    (¬ ((∀ a ∈ expected.1, a ∈ kwargs.map (fun p => p.1)) ∧
        ∀ a ∈ kwargs.map (fun p => p.1), a ∈ expected.1 ++ expected.2) →
      ∀ hook2 : List (String × α) → β,
        MultiModalLanguageModel.forward expected hook2 kwargs =
          .error (.modelingInputMismatch (kwargs.map (fun p => p.1))
            (expected.1 ++ expected.2) expected.1)) ∧
    (((∀ a ∈ expected.1, a ∈ kwargs.map (fun p => p.1)) ∧
        ∀ a ∈ kwargs.map (fun p => p.1), a ∈ expected.1 ++ expected.2) →
      MultiModalLanguageModel.forward expected hook kwargs = .ok (hook kwargs)) := by
  have hbody : ∀ hk : List (String × α) → β,
      MultiModalLanguageModel.forward expected hk kwargs =
        if (expected.1.all (fun a => (kwargs.map (fun p => p.1)).contains a) &&
            (kwargs.map (fun p => p.1)).all
              (fun a => (expected.1 ++ expected.2).contains a)) = true
        then .ok (hk kwargs)
        else .error (.modelingInputMismatch (kwargs.map (fun p => p.1))
          (expected.1 ++ expected.2) expected.1) := fun _ => rfl
  have hcond : (expected.1.all (fun a => (kwargs.map (fun p => p.1)).contains a) &&
      (kwargs.map (fun p => p.1)).all
        (fun a => (expected.1 ++ expected.2).contains a)) = true ↔
      ((∀ a ∈ expected.1, a ∈ kwargs.map (fun p => p.1)) ∧
        ∀ a ∈ kwargs.map (fun p => p.1), a ∈ expected.1 ++ expected.2) := by
    rw [Bool.and_eq_true, List.all_eq_true, List.all_eq_true]
    constructor
    · rintro ⟨h1, h2⟩
      exact ⟨fun a ha => List.elem_iff.mp (h1 a ha),
        fun a ha => List.elem_iff.mp (h2 a ha)⟩
    · rintro ⟨h1, h2⟩
      exact ⟨fun a ha => List.elem_iff.mpr (h1 a ha),
        fun a ha => List.elem_iff.mpr (h2 a ha)⟩
  constructor
  · intro hviol hook2
    have hfalse : (expected.1.all (fun a => (kwargs.map (fun p => p.1)).contains a) &&
        (kwargs.map (fun p => p.1)).all
          (fun a => (expected.1 ++ expected.2).contains a)) = false := by
      rcases hcb : (expected.1.all (fun a => (kwargs.map (fun p => p.1)).contains a) &&
        (kwargs.map (fun p => p.1)).all
          (fun a => (expected.1 ++ expected.2).contains a)) with _ | _
      · rfl
      · exact absurd (hcond.mp hcb) hviol
    rw [hbody hook2, hfalse]
    rfl
  · intro hsat
    rw [hbody hook, hcond.mpr hsat]
    rfl

/-- Witness for C5 over the text model's `expected_inputs`: supplying only
`input_ids` violates the superset condition and yields the name-listing
error regardless of the hook; supplying exactly the three mandatory names
invokes the hook. -/
theorem C5_forward_validation_witness :
    MultiModalLanguageModel.forward TextLanguageModel.expected_inputs
      (fun kwargs : List (String × Nat) => kwargs.length)
      [("input_ids", 7)] =
      .error (.modelingInputMismatch ["input_ids"]
        ["input_ids", "token_type_ids", "attention_mask"]
        ["input_ids", "token_type_ids", "attention_mask"]) ∧
    MultiModalLanguageModel.forward TextLanguageModel.expected_inputs
      (fun kwargs : List (String × Nat) => kwargs.length)
      [("input_ids", 7), ("token_type_ids", 0), ("attention_mask", 1)] =
      .ok 3 := by
  constructor
  · exact (C5_forward_validation TextLanguageModel.expected_inputs
      (fun kwargs : List (String × Nat) => kwargs.length)
      [("input_ids", 7)]).1 (by decide)
      (fun kwargs : List (String × Nat) => kwargs.length)
  · exact (C5_forward_validation TextLanguageModel.expected_inputs
      (fun kwargs : List (String × Nat) => kwargs.length)
      [("input_ids", 7), ("token_type_ids", 0), ("attention_mask", 1)]).2
      (by decide)

/-- C7 counterexample: with the single *same* filter argument — a dict of
two entries — `retrieve(query, filters)` succeeds (it wraps the filter in a
one-element list), while `retrieve_batch([query], filters, batch_size=1)`
with the identical remaining arguments raises the count-mismatch error,
because the dict counts as an iterable of its 2 keys against 1 query. So
`retrieve` is NOT `retrieve_batch` on the same remaining arguments. -/
theorem C7_counterexample :
    echoRetriever.retrieve "a".data "text" (.dict [("x", 1), ("y", 2)]) none
      none none none = .ok [⟨.text "d:x y".data, "scaled", []⟩] ∧
    echoRetriever.retrieve_batch ["a".data] "text" (.dict [("x", 1), ("y", 2)])
      none none none none none = .error .filterCountMismatch :=
  ⟨rfl, rfl⟩

/-- C7 amended: `retrieve(query, f, ...)` equals `retrieve_batch` on the
one-element query list, batch size 1 and the same remaining arguments
*with the filter wrapped in a one-element list* (`filters=[f]`, as the
source itself passes it): it returns exactly the sole result list of that
call and propagates its errors. With the filter passed unwrapped the
equivalence fails (see the counterexample), since a dict filter is treated
as an iterable of its keys. -/
theorem C7_amended (r : MultiModalRetriever) (query : List Char)
    (content_type : String) (f : FilterVal) (top_k : Option Nat)
    (index : Option String) (headers : Option (List (String × String)))
    (scale_score : Option Bool) :
    (∀ docs, r.retrieve query content_type f top_k index headers scale_score =
        .ok docs ↔
      ∃ res, r.retrieve_batch [query] content_type (.list [f]) top_k index
          headers (some 1) scale_score = .ok res ∧ res.head? = some docs) ∧
    (∀ err, r.retrieve_batch [query] content_type (.list [f]) top_k index
        headers (some 1) scale_score = .error err →
      r.retrieve query content_type f top_k index headers scale_score =
        .error err) := by
  have hbody : r.retrieve query content_type f top_k index headers scale_score =
      match r.retrieve_batch [query] content_type (.list [f]) top_k index
        headers (some 1) scale_score with
      | .error e => .error e
      | .ok (res :: _) => .ok res
      | .ok [] => .error .indexError := rfl
  rcases hrb : r.retrieve_batch [query] content_type (.list [f]) top_k index
      headers (some 1) scale_score with err | res
  · rw [hrb] at hbody
    constructor
    · intro docs
      constructor
      · intro h
        rw [hbody] at h
        cases h
      · rintro ⟨res, hres, _⟩
        cases hres
    · intro err2 h2
      cases h2
      exact hbody
  · rcases res with _ | ⟨r0, rs⟩
    · rw [hrb] at hbody
      have hbody2 : r.retrieve query content_type f top_k index headers
          scale_score = .error .indexError := hbody
      constructor
      · intro docs
        constructor
        · intro h
          rw [hbody2] at h
          cases h
        · rintro ⟨res', hres', hhead⟩
          injection hres' with h4
          rw [← h4] at hhead
          cases hhead
      · intro err2 h2
        cases h2
    · have hbody2 : r.retrieve query content_type f top_k index headers
          scale_score = .ok r0 := by rw [hbody, hrb]
      constructor
      · intro docs
        constructor
        · intro h
          rw [hbody2] at h
          injection h with h3
          exact ⟨r0 :: rs, rfl, by rw [← h3]; rfl⟩
        · rintro ⟨res', hres', hhead⟩
          injection hres' with h4
          rw [← h4, List.head?_cons] at hhead
          injection hhead with h5
          rw [hbody2, h5]
      · intro err2 h2
        cases h2

/-- Witness for C7 amended at a concrete retriever and `None` filter. -/
theorem C7_amended_witness :
    echoRetriever.retrieve "a".data "text" .null none none none none =
      .ok [⟨.text "None".data, "scaled", []⟩] :=
  ((C7_amended echoRetriever "a".data "text" .null none none none none).1
    [⟨.text "None".data, "scaled", []⟩]).mpr
    ⟨[[⟨.text "None".data, "scaled", []⟩]], rfl, rfl⟩

/-- C10: in `retrieve_batch` the effective `scale_score` is the
construction-time value whenever the per-call argument is `False` or `None`
(Python `or` fallback), so a retriever constructed with `scale_score=True`
returns exactly the same results for `scale_score=False` as for
`scale_score=True` — unscaled scores are unobtainable per call; the same
falsy fallback applies to `top_k`, so `top_k=0` silently becomes the
construction-time `top_k`. -/
theorem C10_falsy_fallbacks (r : MultiModalRetriever)
    (queries : List (List Char)) (content_type : String) (filters : PyFilters)
    (top_k : Option Nat) (index : Option String)
    (headers : Option (List (String × String))) (batch_size : Option Nat) :
    (r.scale_score = true →
      r.retrieve_batch queries content_type filters top_k index headers
          batch_size (some false) =
        r.retrieve_batch queries content_type filters top_k index headers
          batch_size (some true) ∧
      r.retrieve_batch queries content_type filters top_k index headers
          batch_size none =
        r.retrieve_batch queries content_type filters top_k index headers
          batch_size (some true)) ∧
    (∀ c : Bool, pyOrBool (some false) c = c ∧ pyOrBool none c = c ∧
      pyOrBool (some true) c = true) ∧
    (∀ ss : Option Bool,
      r.retrieve_batch queries content_type filters (some 0) index headers
          batch_size ss =
        r.retrieve_batch queries content_type filters none index headers
          batch_size ss) ∧
    (∀ dflt : Nat, pyOrNat (some 0) dflt = dflt ∧ pyOrNat none dflt = dflt) := by
  refine ⟨?_, fun c => ⟨rfl, rfl, rfl⟩, fun ss => rfl, fun dflt => ⟨rfl, rfl⟩⟩
  intro hss
  have h1 : pyOrBool (some false) r.scale_score = pyOrBool (some true) r.scale_score := by
    rw [show pyOrBool (some false) r.scale_score = r.scale_score from rfl, hss]
    rfl
  have h2 : pyOrBool none r.scale_score = pyOrBool (some true) r.scale_score := by
    rw [show pyOrBool none r.scale_score = r.scale_score from rfl, hss]
    rfl
  constructor
  · simp only [MultiModalRetriever.retrieve_batch, h1]
  · simp only [MultiModalRetriever.retrieve_batch, h2]

/-- Witness for C10: on a `scale_score=True` retriever, a call with
`scale_score=False` returns the same (scaled-flag) results as with `True`. -/
theorem C10_falsy_fallbacks_witness :
    echoRetriever.retrieve_batch ["a".data] "text" .none none none none none
        (some false) =
      echoRetriever.retrieve_batch ["a".data] "text" .none none none none none
        (some true) ∧
    echoRetriever.retrieve_batch ["a".data] "text" .none none none none none
        (some true) = .ok [[⟨.text "d:".data, "scaled", []⟩]] :=
  ⟨((C10_falsy_fallbacks echoRetriever ["a".data] "text" .none none none none
      none).1 rfl).1, rfl⟩
